import Mathlib

set_option maxRecDepth 1000000

/-!
Verification development for the KovaaK's log ingestion and normalization
engine.  The definitions below are shallow embeddings of the TypeScript
source (src/app/page.tsx and the two tracker variants in src/unnamed/
part_001 and part_002).  JavaScript numbers are modelled as `Option ℚ`
where `none` stands for `NaN`; host string/regex operations are modelled
by executable functions on `List Char`.
-/

namespace Kovaaks

/-- JavaScript whitespace class (ASCII part of the regex class backslash-s
and of String.trim). -/
def jsWhite (c : Char) : Bool :=
  c = ' ' || c = '\t' || c = '\n' || c = '\r' || c = '\x0b' || c = '\x0c'

/-- A line terminator, which the regex dot does not match. -/
def lineTermCh (c : Char) : Bool := c = '\n' || c = '\r'

/-- The regex separator class used by part_002's field patterns: comma,
semicolon or whitespace. -/
def sepCh (c : Char) : Bool := c = ',' || c = ';' || jsWhite c

/-- The capture class of part_002's numeric field patterns: digits, dot or
comma. -/
def numCls (c : Char) : Bool := c.isDigit || c = '.' || c = ','

/-- Whether the first list is a prefix of the second (JS String.startsWith
at the character level). -/
def lstart : List Char → List Char → Bool
  | [], _ => true
  | _ :: _, [] => false
  | p :: ps, c :: cs => p = c && lstart ps cs

/-- Whether the first list occurs as a contiguous sublist of the second
(JS String.includes). -/
def lcontains (pat : List Char) : List Char → Bool
  | [] => lstart pat []
  | s@(_ :: rest) => lstart pat s || lcontains pat rest

/-- Case-insensitive prefix stripping: if the key matches the start of the
text up to ASCII case, return the remaining text (models the /i flag on
part_002's field regexes). -/
def stripCI : List Char → List Char → Option (List Char)
  | [], s => some s
  | _ :: _, [] => none
  | p :: ps, c :: cs => if p.toLower = c.toLower then stripCI ps cs else none

/-- JS String.split with a (nonempty) string separator, at the character
level.  An empty input yields one empty segment, as in JS. -/
def splitSubGo (sep : List Char) : List Char → List Char → List (List Char)
  | acc, [] => [acc.reverse]
  | acc, c :: rest =>
    if h : sep ≠ [] ∧ lstart sep (c :: rest) then
      acc.reverse :: splitSubGo sep [] ((c :: rest).drop sep.length)
    else
      splitSubGo sep (c :: acc) rest
termination_by _ s => s.length
decreasing_by
  · have hsep : 0 < sep.length := List.length_pos.2 h.1
    simp only [List.length_drop, List.length_cons]
    omega
  · simp only [List.length_cons]
    omega

/-- JS String.split with a string separator. -/
def splitSub (sep : List Char) (s : List Char) : List (List Char) :=
  splitSubGo sep [] s

/-- JS String.replace with a plain string pattern: replaces only the first
occurrence. -/
def replFirst (pat rep : List Char) : List Char → List Char
  | [] => []
  | s@(c :: rest) =>
    if pat ≠ [] ∧ lstart pat s then rep ++ s.drop pat.length
    else c :: replFirst pat rep rest

/-- JS String.trim restricted to the ASCII whitespace characters. -/
def trimCh (l : List Char) : List Char :=
  ((l.dropWhile jsWhite).reverse.dropWhile jsWhite).reverse

/-- Value of a list of decimal digit characters. -/
def digitsToNat (l : List Char) : ℕ :=
  l.foldl (fun n c => 10 * n + (c.toNat - 48)) 0

/-- Exponent suffix of a JS floating-point literal ("e"/"E", optional sign,
digits); returns 0 when no well-formed exponent follows, as parseFloat
then simply stops before it. -/
def parseExp : List Char → ℤ
  | [] => 0
  | c :: rest =>
    if c = 'e' ∨ c = 'E' then
      match rest with
      | '+' :: ds =>
        let d := ds.takeWhile Char.isDigit
        if d = [] then 0 else (digitsToNat d : ℤ)
      | '-' :: ds =>
        let d := ds.takeWhile Char.isDigit
        if d = [] then 0 else -(digitsToNat d : ℤ)
      | ds =>
        let d := ds.takeWhile Char.isDigit
        if d = [] then 0 else (digitsToNat d : ℤ)
    else 0

/-- Mantissa-and-exponent part of JS parseFloat, after whitespace and sign
have been consumed.  `none` models NaN.  (The "Infinity" literal and
hexadecimal forms are not modelled; no input in this development produces
them.) -/
def parseFloatCore (s : List Char) : Option ℚ :=
  let d1 := s.takeWhile Char.isDigit
  let r1 := s.dropWhile Char.isDigit
  match r1 with
  | '.' :: r2 =>
    let d2 := r2.takeWhile Char.isDigit
    let r3 := r2.dropWhile Char.isDigit
    if d1 = [] ∧ d2 = [] then none
    else
      some (((digitsToNat d1 : ℚ) + (digitsToNat d2 : ℚ) / (10 : ℚ) ^ d2.length)
              * (10 : ℚ) ^ parseExp r3)
  | _ =>
    if d1 = [] then none
    else some ((digitsToNat d1 : ℚ) * (10 : ℚ) ^ parseExp r1)

/-- JS parseFloat on a character list: leading whitespace, optional sign,
then the longest numeric prefix; `none` models NaN. -/
def parseFloatCh (l : List Char) : Option ℚ :=
  match l.dropWhile jsWhite with
  | '+' :: t => parseFloatCore t
  | '-' :: t => (parseFloatCore t).map Neg.neg
  | t => parseFloatCore t

/-- JS parseFloat on a string. -/
def parseFloatJs (s : String) : Option ℚ := parseFloatCh s.data

/-- JS number addition with NaN propagation. -/
def jsAdd : Option ℚ → Option ℚ → Option ℚ
  | some a, some b => some (a + b)
  | _, _ => none

/-- JS number multiplication with NaN propagation.  (Inputs in this
development never mix 0 and infinities, so NaN arises only from NaN.) -/
def jsMul : Option ℚ → Option ℚ → Option ℚ
  | some a, some b => some (a * b)
  | _, _ => none

/-- timeToSeconds from src/app/page.tsx: empty strings and strings with
fewer than three colon-separated parts give 0; otherwise
hours*3600 + minutes*60 + seconds with parseFloat on each part. -/
def timeToSeconds (timeStr : String) : Option ℚ :=
  if timeStr = "" then some 0
  else
    let parts := splitSub [':'] timeStr.data
    if parts.length < 3 then some 0
    else
      jsAdd
        (jsAdd (jsMul (parseFloatCh (parts.getD 0 [])) (some 3600))
               (jsMul (parseFloatCh (parts.getD 1 [])) (some 60)))
        (parseFloatCh (parts.getD 2 []))

/-- The per-row Timestamp handling of src/app/page.tsx lines 224-227: each
cell is converted with timeToSeconds and pushed onto killTimes only when
the result is strictly positive (NaN, here `none`, compares false). -/
def killTimesFromCells (cells : List String) : List ℚ :=
  cells.foldr
    (fun c acc =>
      match timeToSeconds c with
      | some q => if 0 < q then q :: acc else acc
      | none => acc)
    []

/-- The fatigue/stamina estimator of src/app/page.tsx lines 234-253,
as a function of the killTimes sequence it receives. -/
def fatigueIndex (killTimes : List ℚ) : ℚ :=
  if 4 < killTimes.length then
    let start := killTimes.headD 0
    let stop := killTimes.getLastD 0
    let duration := stop - start
    if 10 < duration then
      let midPoint := start + duration / 2
      let firstHalfKills := killTimes.countP (fun t => t ≤ midPoint)
      let secondHalfKills := killTimes.length - firstHalfKills
      if 0 < firstHalfKills then
        ((secondHalfKills : ℚ) / (firstHalfKills : ℚ)) * 100
      else 0
    else 0
  else 0

/-! Scanning engine for part_002's field regexes of the shape
KEY [,;\s]+ CAPTURE.  The engine tries each start position from the left;
at a position where the key matches (case-insensitively), the separator
run is taken greedily and then backtracks rightmost-first until the
capture class can consume at least one character, exactly as the
backtracking regex engine does. -/

/-- Scan rightwards through a separator run, remembering the rightmost
suffix whose head the capture class accepts. -/
def scanSepRun (good : Char → Bool) : List Char → Option (List Char) → Option (List Char)
  | [], best => best
  | c :: v, best =>
    let best2 := if good c then some (c :: v) else best
    if sepCh c then scanSepRun good v best2 else best2

/-- Demand at least one separator character, then resolve the capture
start by greedy-with-backtracking. -/
def afterSep (good : Char → Bool) : List Char → Option (List Char)
  | [] => none
  | c :: v => if sepCh c then scanSepRun good v none else none

/-- Find the first position where KEY (case-insensitive), a separator run
and a nonempty capture all match; return the capture (the maximal run of
`keep` characters at the capture start). -/
def findKeyGen (key : List Char) (good keep : Char → Bool) : List Char → Option (List Char)
  | [] => none
  | c :: rest =>
    match stripCI key (c :: rest) with
    | some u =>
      match afterSep good u with
      | some w => some (w.takeWhile keep)
      | none => findKeyGen key good keep rest
    | none => findKeyGen key good keep rest

/-- Field pattern with a character-class capture, e.g.
Score:[,;\s]+([\d\.,]+) with the /i flag. -/
def findKeyCls (key : String) (cls : Char → Bool) (text : List Char) : Option (List Char) :=
  findKeyGen key.data cls cls text

/-- Field pattern whose capture is (.+): everything up to the end of the
line, e.g. Scenario:[,;\s]+(.+) with the /i flag. -/
def findKeyLine (key : String) (text : List Char) : Option (List Char) :=
  findKeyGen key.data (fun c => !(lineTermCh c)) (fun c => !(lineTermCh c)) text

/-! The normalized record and the per-scenario series. -/

/-- The KovaaksDataPoint record of the source, minus the random `id`
field (which is used only as a React list key and never read back).
Numeric fields are `Option ℚ` with `none` for NaN. -/
structure DataPoint where
  date : String
  score : Option ℚ
  scenario : String
  accuracy : Option ℚ
  ttk : Option ℚ
  fps : Option ℚ
  fatigue : Option ℚ
deriving DecidableEq

/-- The ParsedResults object: a JS object keyed by scenario name,
modelled as an association list in insertion order with distinct keys. -/
abbrev Series := List (String × List DataPoint)

/-- Association-list lookup (JS property access on the results object). -/
def alookup {β : Type} : List (String × β) → String → Option β
  | [], _ => none
  | p :: rest, k => if p.1 = k then some p.2 else alookup rest k

/-- The push pattern `if (!results[k]) results[k] = []; results[k].push(r)`:
appends to the list under an existing key, or appends a new key at the
end. -/
def pushInto (res : Series) (k : String) (r : DataPoint) : Series :=
  match res with
  | [] => [(k, [r])]
  | p :: rest => if p.1 = k then (p.1, p.2 ++ [r]) :: rest else p :: pushInto rest k r

/-- Total number of records stored in a series. -/
def totalRecords (res : Series) : ℕ := (res.map (fun p => p.2.length)).sum

/-- An input file: its name and its full text. -/
structure FileInput where
  name : String
  text : String

/-! Date resolution. -/

/-- Decimal value of one digit character. -/
def c2n (c : Char) : ℕ := c.toNat - 48

/-- Days in a month of the Gregorian calendar. -/
def daysInMonth (y m : ℕ) : ℕ :=
  if m = 2 then (if y % 4 = 0 ∧ (y % 100 ≠ 0 ∨ y % 400 = 0) then 29 else 28)
  else if m = 4 ∨ m = 6 ∨ m = 9 ∨ m = 11 then 30 else 31

/-- Fields of a YYYY-MM-DDTHH:MM:SS string, with the range checks that
JS Date.parse performs on this ISO shape; `none` when the string does not
have the shape or a field is out of range. -/
def isoFields : List Char → Option (ℕ × ℕ × ℕ × ℕ × ℕ × ℕ)
  | [y1, y2, y3, y4, a1, m1, m2, a2, d1, d2, tc, h1, h2, b1, n1, n2, b2, s1, s2] =>
    if (y1.isDigit ∧ y2.isDigit ∧ y3.isDigit ∧ y4.isDigit ∧ m1.isDigit ∧ m2.isDigit ∧
        d1.isDigit ∧ d2.isDigit ∧ h1.isDigit ∧ h2.isDigit ∧ n1.isDigit ∧ n2.isDigit ∧
        s1.isDigit ∧ s2.isDigit ∧ a1 = '-' ∧ a2 = '-' ∧ tc = 'T' ∧ b1 = ':' ∧ b2 = ':') then
      let y := 1000 * c2n y1 + 100 * c2n y2 + 10 * c2n y3 + c2n y4
      let mo := 10 * c2n m1 + c2n m2
      let da := 10 * c2n d1 + c2n d2
      let ho := 10 * c2n h1 + c2n h2
      let mi := 10 * c2n n1 + c2n n2
      let se := 10 * c2n s1 + c2n s2
      if 1 ≤ mo ∧ mo ≤ 12 ∧ 1 ≤ da ∧ da ≤ daysInMonth y mo ∧ ho ≤ 23 ∧ mi ≤ 59 ∧ se ≤ 59 then
        some (y, mo, da, ho, mi, se)
      else none
    else none
  | _ => none

/-- Whether Date.parse accepts the string (restricted to the
YYYY-MM-DDTHH:MM:SS shape that part_002 constructs; all uses in this
development are on strings of that shape). -/
def validIso (s : List Char) : Bool := (isoFields s).isSome

/-- Days since 1970-01-01 of a Gregorian date with year at least 1
(the standard civil-from-days algorithm; all divisions act on nonnegative
values here, so truncated division equals floor division). -/
def daysFromCivil (y mo da : ℕ) : ℤ :=
  let yy : ℤ := if mo ≤ 2 then (y : ℤ) - 1 else (y : ℤ)
  let era : ℤ := yy / 400
  let yoe : ℤ := yy - era * 400
  let mp : ℤ := ((mo : ℤ) + 9) % 12
  let doy : ℤ := (153 * mp + 2) / 5 + (da : ℤ) - 1
  let doe : ℤ := yoe * 365 + yoe / 4 - yoe / 100 + doy
  era * 146097 + doe - 719468

/-- Seconds since the epoch of an accepted ISO string: the model of
`new Date(s).getTime()` used by part_002's per-scenario sort (a constant
timezone offset would shift all values equally and cannot change the
sort order). -/
def isoEpochSeconds (s : String) : Option ℤ :=
  match isoFields s.data with
  | some (y, mo, da, ho, mi, se) =>
    some (daysFromCivil y mo da * 86400 + (ho : ℤ) * 3600 + (mi : ℤ) * 60 + (se : ℤ))
  | none => none

/-- Match \d{4}.\d{2}.\d{2} at the head of the list (10 characters). -/
def dateTok : List Char → Option (List Char × List Char)
  | a :: b :: c :: d :: p1 :: e :: f :: p2 :: g :: h :: rest =>
    if a.isDigit ∧ b.isDigit ∧ c.isDigit ∧ d.isDigit ∧ p1 = '.' ∧ e.isDigit ∧ f.isDigit ∧
       p2 = '.' ∧ g.isDigit ∧ h.isDigit then
      some ([a, b, c, d, p1, e, f, p2, g, h], rest)
    else none
  | _ => none

/-- Match \d{2}.\d{2}.\d{2} at the head of the list (8 characters). -/
def timeTok : List Char → Option (List Char)
  | a :: b :: p1 :: c :: d :: p2 :: e :: f :: _ =>
    if a.isDigit ∧ b.isDigit ∧ p1 = '.' ∧ c.isDigit ∧ d.isDigit ∧ p2 = '.' ∧ e.isDigit ∧
       f.isDigit then
      some [a, b, p1, c, d, p2, e, f]
    else none
  | _ => none

/-- Lazy gap of part_002's file-name regex: find the earliest following
position where the time token matches, without crossing a line
terminator (the dot does not match those). -/
def findGapTime : List Char → Option (List Char)
  | [] => none
  | c :: v =>
    match timeTok (c :: v) with
    | some tt => some tt
    | none => if lineTermCh c then none else findGapTime v

/-- part_002's file-name regex
(\d{4}\.\d{2}\.\d{2}).*?(\d{2}\.\d{2}\.\d{2}): earliest start position
whose date token is followed (lazily) by a time token. -/
def nameMatch2 : List Char → Option (List Char × List Char)
  | [] => none
  | c :: rest =>
    match dateTok (c :: rest) with
    | some (dt, u) =>
      match findGapTime u with
      | some tt => some (dt, tt)
      | none => nameMatch2 rest
    | none => nameMatch2 rest

/-- part_002 lines 186-194: build YYYY-MM-DDTHH:MM:SS from the file-name
tokens; `some` only when Date.parse accepts the result. -/
def nameIso (fname : String) : Option String :=
  match nameMatch2 fname.data with
  | some (dt, tt) =>
    let datePart := dt.map (fun c => if c = '.' then '-' else c)
    let timePart := tt.map (fun c => if c = '.' then ':' else c)
    let iso := datePart ++ 'T' :: timePart
    if validIso iso then some (String.mk iso) else none
  | none => none

/-- The timestamp part_002 stores on a detailed record: the file-name ISO
string when present and parseable, otherwise the ingestion time `now`
(new Date().toISOString()). -/
def part2Date (now : String) (fname : String) : String := (nameIso fname).getD now

/-! part_002's detailed branch (regex strategy), lines 157-208. -/

/-- Scenario extraction: /Scenario:[,;\s]+(.+)/i then trim; `none` when
the pattern does not match (the code's null). -/
def d2scenario (text : String) : Option String :=
  (findKeyLine ("scenario:") text.data).map (fun cs => String.mk (trimCh cs))

/-- Raw score text: the /Score:[,;\s]+([\d\.,]+)/i capture with its first
comma turned into a dot, or the default string 0. -/
def d2rawScore (text : String) : List Char :=
  match findKeyCls ("score:") numCls text.data with
  | some cap => replFirst [','] ['.'] cap
  | none => ['0']

/-- Parsed score (NaN as `none`). -/
def d2score (text : String) : Option ℚ := parseFloatCh (d2rawScore text)

/-- Hit count: parseInt on the /Hit Count:[,;\s]+(\d+)/i capture (always
a nonempty digit string, so parseInt is its decimal value), or 0. -/
def d2hits (text : String) : ℕ :=
  match findKeyCls ("hit count:") Char.isDigit text.data with
  | some d => digitsToNat d
  | none => 0

/-- Miss count, as for hits. -/
def d2misses (text : String) : ℕ :=
  match findKeyCls ("miss count:") Char.isDigit text.data with
  | some d => digitsToNat d
  | none => 0

/-- Accuracy of the detailed branch: hits/(hits+misses) when the sum is
positive, else 0. -/
def d2acc (text : String) : ℚ :=
  let hits := d2hits text
  let misses := d2misses text
  if 0 < hits + misses then (hits : ℚ) / ((hits : ℚ) + (misses : ℚ)) else 0

/-- Avg TTK: parseFloat of the comma-fixed capture, or 0 when the pattern
is absent. -/
def d2ttk (text : String) : Option ℚ :=
  match findKeyCls ("avg ttk:") numCls text.data with
  | some cap => parseFloatCh (replFirst [','] ['.'] cap)
  | none => some 0

/-- Avg FPS, as for TTK. -/
def d2fps (text : String) : Option ℚ :=
  match findKeyCls ("avg fps:") numCls text.data with
  | some cap => parseFloatCh (replFirst [','] ['.'] cap)
  | none => some 0

/-- The record produced by part_002's detailed branch: `none` when the
scenario is falsy or the score is NaN (the `scenario && !isNaN(score)`
guard). -/
def detailed2 (now : String) (f : FileInput) : Option DataPoint :=
  match d2scenario f.text, d2score f.text with
  | some sc, some q =>
    if sc = "" then none
    else some
      { date := part2Date now f.name
        score := some q
        scenario := sc
        accuracy := some (d2acc f.text)
        ttk := d2ttk f.text
        fps := d2fps f.text
        fatigue := some 0 }
  | _, _ => none

/-- part_002's format test, line 157: text starts with Kill # or contains
the Kill #,Timestamp header. -/
def isDetailed2 (text : String) : Bool :=
  lstart (("Kill #").data) text.data || lcontains (("Kill #,Timestamp").data) text.data

/-! part_002's summary branch: Papa.parse with header:true. -/

/-- Split into lines, stripping one trailing carriage return from each
(Papa accepts both newline conventions). -/
def splitLinesJs (s : String) : List (List Char) :=
  (splitSub ['\n'] s.data).map
    (fun l => match l.getLast? with
      | some c => if c = '\r' then l.dropLast else l
      | none => l)

/-- Papa.parse with header:true and skipEmptyLines:true, for the
comma-delimited unquoted inputs this development analyses: the first
nonempty line names the fields, every later nonempty line becomes a row
whose cells are paired with the field names (missing trailing cells are
simply absent, as in Papa's row objects). -/
def papaHeaderRows (text : String) : List (List (String × String)) :=
  match (splitLinesJs text).filter (fun l => l ≠ []) with
  | [] => []
  | hdr :: rest =>
    let hs := (splitSub [','] hdr).map (fun c => String.mk c)
    rest.map (fun line => hs.zip ((splitSub [','] line).map (fun c => String.mk c)))

/-- JS truthiness of a possibly-missing string. -/
def truthyS : Option String → Bool
  | some s => s ≠ ""
  | none => false

/-- The JS expression a || b on possibly-missing strings. -/
def jsOrS (a b : Option String) : Option String := if truthyS a then a else b

/-- The JS expression a || d with a string default. -/
def jsOrD (a : Option String) (d : String) : String :=
  match a with
  | some s => if s = "" then d else s
  | none => d

/-- Row field access. -/
def rowField (row : List (String × String)) (k : String) : Option String := alookup row k

/-- The resolved scenario of a summary row:
row['Scenario Name'] || row['Scenario']. -/
def rowScenario (row : List (String × String)) : Option String :=
  jsOrS (rowField row ("Scenario Name")) (rowField row ("Scenario"))

/-- Whether a summary row passes the `if (!scenarioName) return` guard. -/
def truthyRow (row : List (String × String)) : Bool := truthyS (rowScenario row)

/-- Numeric field of a summary row:
parseFloat((row[k] || '0').replace(',', '.')). -/
def parseNumField (row : List (String × String)) (k : String) : Option ℚ :=
  parseFloatCh (replFirst [','] ['.'] ((jsOrD (rowField row k) ("0")).data))

/-- The record pushed for one summary row (part_002 lines 217-236), or
`none` when the scenario name is falsy. -/
def rowRecord2 (now : String) (row : List (String × String)) : Option DataPoint :=
  match rowScenario row with
  | some nm =>
    if nm = "" then none
    else some
      { date := jsOrD (rowField row ("Date and Time")) now
        score := parseNumField row ("Score")
        scenario := nm
        accuracy := parseNumField row ("Accuracy")
        ttk := parseNumField row ("Time To Kill")
        fps := parseNumField row ("Avg FPS")
        fatigue := some 0 }
  | none => none

/-- Processing one summary row against the running results object. -/
def summaryStep (now : String) (res : Series) (row : List (String × String)) : Series :=
  match rowRecord2 now row with
  | some r => pushInto res r.scenario r
  | none => res

/-- part_002's processFiles body for a single file, before the final
per-scenario sort: the detailed branch when the format test fires, the
summary branch otherwise.  The source emits no skip report of any kind
on either path. -/
def processFile2raw (now : String) (res : Series) (f : FileInput) : Series :=
  if isDetailed2 f.text then
    match detailed2 now f with
    | some r => pushInto res r.scenario r
    | none => res
  else (papaHeaderRows f.text).foldl (summaryStep now) res

/-! File-name date handling of src/app/page.tsx and part_001. -/

/-- parseFileName of src/app/page.tsx lines 119-125: strip the first
".csv" and the first " Stats", split on " - ", take the trimmed first
part as the scenario and the last part as the raw date. -/
def parseFileNameP (fileName : String) : String × String :=
  let clean := replFirst ((" Stats").data) [] (replFirst ((".csv").data) [] fileName.data)
  let parts := splitSub ((" - ").data) clean
  (String.mk (trimCh (parts.getD 0 [])), String.mk (parts.getLastD []))

/-- The date-string chain of page.tsx line 160 (also part_001 line 300):
replace every dot with a dash, replace the FIRST dash with T, then
replace every remaining dot with a colon. -/
def pageDateChain (s : String) : String :=
  let s1 := s.data.map (fun c => if c = '.' then '-' else c)
  let s2 := replFirst ['-'] ['T'] s1
  String.mk (s2.map (fun c => if c = '.' then ':' else c))

/-- The `formattedDate` stored on every record page.tsx produces from a
file (lines 159-160 and 257-267). -/
def pageFormattedDate (fileName : String) : String :=
  pageDateChain (parseFileNameP fileName).2

/-- Match \d{4}.\d{2}.\d{2}-\d{2}.\d{2}.\d{2} at the head of the list
(19 characters), for part_001's file-name regex. -/
def tok1At : List Char → Option (List Char)
  | a :: b :: c :: d :: p1 :: e :: f :: p2 :: g :: h :: dsh :: i :: j :: p3 :: k :: l :: p4 ::
      m :: n :: _ =>
    if a.isDigit ∧ b.isDigit ∧ c.isDigit ∧ d.isDigit ∧ p1 = '.' ∧ e.isDigit ∧ f.isDigit ∧
       p2 = '.' ∧ g.isDigit ∧ h.isDigit ∧ dsh = '-' ∧ i.isDigit ∧ j.isDigit ∧ p3 = '.' ∧
       k.isDigit ∧ l.isDigit ∧ p4 = '.' ∧ m.isDigit ∧ n.isDigit then
      some [a, b, c, d, p1, e, f, p2, g, h, dsh, i, j, p3, k, l, p4, m, n]
    else none
  | _ => none

/-- part_001's file-name regex
(\d{4}\.\d{2}\.\d{2}-\d{2}\.\d{2}\.\d{2}): first matching position. -/
def part1NameToken : List Char → Option (List Char)
  | [] => none
  | c :: rest =>
    match tok1At (c :: rest) with
    | some t => some t
    | none => part1NameToken rest

/-- The isoString part_001 line 300 computes from the file-name token
(the same dot/dash chain as page.tsx). -/
def part1IsoString (tok : List Char) : String := pageDateChain (String.mk tok)

/-- The date part_001 lines 296-302 stores: when the regex matches, the
chained string if Date.parse accepts it, else the ingestion time `now`.
Date.parse on the chain's output (which is never of the ISO shape when a
time part is present) is host behaviour; it is abstracted into the
boolean `dateOk`, and the theorems below cover both values. -/
def part1Date (dateOk : Bool) (now fname : String) : String :=
  match part1NameToken fname.data with
  | some tok => if dateOk then part1IsoString tok else now
  | none => now

/-! The scenario aggregator of src/app/page.tsx (processAndSaveStats,
lines 281-291) and the snapshot update of part_001/part_002. -/

/-- Object.values(prev).flat(): all stored records in key order. -/
def flattenVals : Series → List DataPoint
  | [] => []
  | p :: rest => p.2 ++ flattenVals rest

/-- Keys in order of first occurrence (the key order of lodash
groupBy). -/
def firstKeys : List String → List String
  | [] => []
  | a :: as => a :: firstKeys (as.filter (fun b => b ≠ a))
termination_by l => l.length
decreasing_by
  simp only [List.length_cons]
  exact Nat.lt_succ_of_le (List.length_filter_le _ _)

/-- lodash groupBy by the scenario field: one entry per first-occurrence
key, each holding the records with that scenario in original order. -/
def groupByScenario (l : List DataPoint) : Series :=
  (firstKeys (l.map DataPoint.scenario)).map
    (fun k => (k, l.filter (fun r => r.scenario = k)))

/-- The sort comparator of page.tsx line 286,
a.date.localeCompare(b.date), modelled as code-point order (the two
agree on the digit/dash/colon strings the pipeline produces). -/
def recLe (a b : DataPoint) : Bool := a.date ≤ b.date

/-- processAndSaveStats of page.tsx lines 281-291: flatten the previous
snapshot, append the new batch, group by scenario and stably sort each
group by date (JS Array.prototype.sort is stable, hence mergeSort). -/
def processAndSaveStats (prev : Series) (newData : List DataPoint) : Series :=
  (groupByScenario (flattenVals prev ++ newData)).map
    (fun p => (p.1, p.2.mergeSort recLe))

/-- Well-formedness of a snapshot: every record sits under its own
scenario key and keys are distinct (JS objects cannot repeat keys, and
both merge implementations only ever store a record under its scenario). -/
@[reducible] def WFSeries (m : Series) : Prop :=
  (∀ p ∈ m, ∀ r ∈ p.2, r.scenario = p.1) ∧ (m.map Prod.fst).Nodup

/-- The record list a snapshot holds for a scenario. -/
def oldAt (m : Series) (k : String) : List DataPoint := (alookup m k).getD []

/-- The JS object spread { ...prev, ...results }: keys of prev keep
their positions (overwritten values taken from results), keys only in
results are appended. -/
def mergeSpread (prev res : Series) : Series :=
  prev.map (fun p => (p.1, (alookup res p.1).getD p.2))
    ++ res.filter (fun q => (alookup prev q.1).isNone)

/-- The sort comparator of part_001/part_002's finalize:
new Date(a.date).getTime() ascending (NaN keys are unexercised in this
development and modelled as 0). -/
def dpLe2 (a b : DataPoint) : Bool :=
  (isoEpochSeconds a.date).getD 0 ≤ (isoEpochSeconds b.date).getD 0

/-- The snapshot update of part_002 lines 142-148 (and part_001 lines
374-381): sort each scenario list of the NEW batch by date, then
setStats(prev => ({ ...prev, ...results })) — a spread that REPLACES
every affected scenario's list with the new records only. -/
def part2Finalize (prev res : Series) : Series :=
  mergeSpread prev (res.map (fun p => (p.1, p.2.mergeSort dpLe2)))

/-! Cloud sync batching of src/app/page.tsx (handleSyncToCloud,
lines 101-116). -/

/-- The per-request batch size of handleSyncToCloud. -/
def BATCH_SIZE : ℕ := 100

/-- The successive slices allStats.slice(i, i + BATCH_SIZE) of the upload
loop. -/
def syncBatches {α : Type} : List α → List (List α)
  | [] => []
  | c :: rest => (c :: rest).take BATCH_SIZE :: syncBatches ((c :: rest).drop BATCH_SIZE)
termination_by l => l.length
decreasing_by
  simp only [List.length_drop, List.length_cons, BATCH_SIZE]
  omega

/-- The upload loop with the remote outcome abstracted as a per-batch
failure oracle: returns the list of submitted batches (in call order)
and the final errorCount.  The loop body neither breaks nor returns on
error, so submission is unconditional. -/
def runSyncGo {α : Type} (fails : ℕ → Bool) : List α → ℕ → List (List α) × ℕ
  | [], _ => ([], 0)
  | c :: rest, i =>
    let batch := (c :: rest).take BATCH_SIZE
    let r := runSyncGo fails ((c :: rest).drop BATCH_SIZE) (i + 1)
    (batch :: r.1, (if fails i then 1 else 0) + r.2)
termination_by l _ => l.length
decreasing_by
  simp only [List.length_drop, List.length_cons, BATCH_SIZE]
  omega

/-- handleSyncToCloud's upload phase on a flat record list. -/
def runSync {α : Type} (l : List α) (fails : ℕ → Bool) : List (List α) × ℕ :=
  runSyncGo fails l 0

/-! Concrete inputs used by the theorems below. -/

/-- A fixed ingestion time (the value of new Date().toISOString() is
irrelevant to every statement that mentions it). -/
def now0 : String := "2026-01-01T00:00:00.000Z"

/-- The file name of the spec's timestamp example. -/
def fnameC1 : String := "Scenario - 2025.11.03-20.05.18 Stats.csv"

/-- Per-event timestamp column of a detailed log whose kill elapsed-times
are 0, 2, ..., 20 seconds. -/
def cellsC2 : List String :=
  ["00:00:00", "00:00:02", "00:00:04", "00:00:06", "00:00:08", "00:00:10",
   "00:00:12", "00:00:14", "00:00:16", "00:00:18", "00:00:20"]

/-- A summary file whose Score cell is not a number. -/
def fileC4 : FileInput := { name := "summary.csv", text := "Scenario Name,Score\nA,abc" }

/-- A file containing neither a Kill # token nor a Scenario Name header,
but carrying the Scenario alias column. -/
def fileC5 : FileInput := { name := "unknown.csv", text := "Scenario,Score\nA,100" }

/-- The accuracy formula as the spec states it, for comparison with the
extraction code. -/
def accuracySpec (hits misses : ℕ) : ℚ :=
  if 0 < hits + misses then (hits : ℚ) / ((hits : ℚ) + (misses : ℚ)) else 0

/-- A detailed log with Hit Count 80 and Miss Count 20. -/
def file80 : FileInput :=
  { name := "Scenario - 2025.11.03-20.05.18 Stats.csv"
    text := "Kill #,Timestamp\n1,00:00:01\nScenario:,TestScen\nScore:,500\nHit Count:,80\nMiss Count:,20\n" }

/-- The record part_002 extracts from file80. -/
def rec80 : DataPoint :=
  { date := "2025-11-03T20:05:18"
    score := some 500
    scenario := "TestScen"
    accuracy := some (4 / 5)
    ttk := some 0
    fps := some 0
    fatigue := some 0 }

/-- A detailed log with no Scenario field. -/
def fileC8 : FileInput :=
  { name := "noscen.csv", text := "Kill #,Timestamp\n1,00:00:01\nScore:,100\n" }

/-- A file with neither recognizable token nor any scenario column. -/
def fileW5 : FileInput := { name := "w.csv", text := "Hello,World\nfoo,bar" }

/-- A record already stored under scenario A (the later of the two
dates). -/
def raC3 : DataPoint :=
  { date := "2025-02-02T10:00:00"
    score := some 100
    scenario := "A"
    accuracy := some 0
    ttk := some 0
    fps := some 0
    fatigue := some 0 }

/-- A newly extracted record for scenario A (the earlier date). -/
def rbC3 : DataPoint :=
  { date := "2025-01-01T10:00:00"
    score := some 200
    scenario := "A"
    accuracy := some 0
    ttk := some 0
    fps := some 0
    fatigue := some 0 }

/-! Claim theorems. -/

/-- C1: for the file name "Scenario - 2025.11.03-20.05.18 Stats.csv" the
claim says the resolved timestamp is 2025-11-03T20:05:18.  The replace
chain of page.tsx line 160 (and part_001 line 300) instead produces
"2025T11-03-20-05-18": the global dot-to-dash replace runs first, so the
subsequent first-dash-to-T replace hits the dash after the year, not the
date/time separator.  page.tsx stores that malformed string directly;
part_001 stores it when Date.parse accepts it and otherwise falls back
to the ingestion time — on either host behaviour the stored timestamp is
not the claimed ISO value.  Only part_002's two-group regex produces the
claimed value. -/
theorem c1_code_eval :
    pageFormattedDate fnameC1 = "2025T11-03-20-05-18" ∧
    part1Date true now0 fnameC1 = "2025T11-03-20-05-18" ∧
    part1Date false now0 fnameC1 = now0 ∧
    part2Date now0 fnameC1 = "2025-11-03T20:05:18" ∧
    "2025T11-03-20-05-18" ≠ "2025-11-03T20:05:18" ∧
    now0 ≠ "2025-11-03T20:05:18" := by
  refine ⟨?_, ?_, ?_, ?_, ?_, ?_⟩ <;> with_unfolding_all decide

/-- C2 counterexample: for a detailed log whose per-event kill
elapsed-times are [0,2,...,20], the zero-time event is dropped by the
`seconds > 0` guard before the estimator runs, so the estimator sees
[2,...,20] (midpoint 11, split 5/5) and produces 100, not 100*5/6. -/
theorem c2_cex :
    killTimesFromCells cellsC2 = [2, 4, 6, 8, 10, 12, 14, 16, 18, 20] ∧
    fatigueIndex (killTimesFromCells cellsC2) = 100 ∧
    (100 : ℚ) ≠ 100 * (5 / 6) := by
  refine ⟨?_, ?_, ?_⟩ <;> with_unfolding_all decide

/-- C2 amended: given the kill elapsed-time sequence [0,2,...,20]
directly as the estimator's input, the midpoint is 10, the first half
holds the 6 events at times at most 10, the second half the remaining 5,
and the result is 100*5/6. -/
theorem c2_amended :
    List.countP (fun t => t ≤ (10 : ℚ)) [0, 2, 4, 6, 8, 10, 12, 14, 16, 18, 20] = 6 ∧
    ([0, 2, 4, 6, 8, 10, 12, 14, 16, 18, 20] : List ℚ).length
      - List.countP (fun t => t ≤ (10 : ℚ)) [0, 2, 4, 6, 8, 10, 12, 14, 16, 18, 20] = 5 ∧
    fatigueIndex [0, 2, 4, 6, 8, 10, 12, 14, 16, 18, 20] = 100 * (5 / 6) := by
  refine ⟨?_, ?_, ?_⟩ <;> with_unfolding_all decide

/-- C4: the claim says numeric fields of produced records are never NaN
(unparsable inputs normalize to 0).  In part_002's summary branch the
default applies before parseFloat — (raw || '0') — so it only covers a
missing or empty cell; the Score cell "abc" parses to NaN and is stored.
The produced record for scenario A has a NaN score. -/
theorem c4_code_eval :
    (alookup (processFile2raw now0 [] fileC4) ("A")).map (fun l => l.map DataPoint.score)
      = some [none] ∧
    totalRecords (processFile2raw now0 [] fileC4) = 1 := by
  exact ⟨by with_unfolding_all decide, by with_unfolding_all decide⟩

/-- C5 counterexample: this file contains neither a Kill # token nor a
Scenario Name header, yet part_002's summary branch accepts its Scenario
alias column and produces one record — and no code path constructs a
skip entry of any kind. -/
theorem c5_cex :
    lcontains (("Kill #").data) fileC5.text.data = false ∧
    lcontains (("Scenario Name").data) fileC5.text.data = false ∧
    isDetailed2 fileC5.text = false ∧
    totalRecords (processFile2raw now0 [] fileC5) = 1 := by
  refine ⟨?_, ?_, ?_, ?_⟩ <;> with_unfolding_all decide

/-- Unfolding lemma for killTimesFromCells when the head cell converts
to NaN. -/
theorem killTimes_cons_nan (c : String) (cs : List String)
    (h : timeToSeconds c = none) :
    killTimesFromCells (c :: cs) = killTimesFromCells cs := by
  simp only [killTimesFromCells, List.foldr_cons, h]

/-- Unfolding lemma for killTimesFromCells when the head cell converts
to a number. -/
theorem killTimes_cons_num (c : String) (cs : List String) (q : ℚ)
    (h : timeToSeconds c = some q) :
    killTimesFromCells (c :: cs)
      = if 0 < q then q :: killTimesFromCells cs else killTimesFromCells cs := by
  simp only [killTimesFromCells, List.foldr_cons, h]

/-- C10: a per-event timestamp with fewer than three colon-separated
parts converts to 0 seconds; "00:00:00" converts to 0; and since only
strictly positive values are pushed, every entry of the killTimes
sequence handed to the estimator is positive — an elapsed-time-zero
event never counts toward either half of the pacing split. -/
theorem c10_killtimes :
    (∀ s : String, (splitSub [':'] s.data).length < 3 → timeToSeconds s = some 0) ∧
    timeToSeconds ("00:00:00") = some 0 ∧
    (∀ (cells : List String) (t : ℚ), t ∈ killTimesFromCells cells → 0 < t) := by
  refine ⟨?_, by with_unfolding_all decide, ?_⟩
  · intro s h
    unfold timeToSeconds
    by_cases hs : s = ""
    · simp [hs]
    · simp [hs, h]
  · intro cells
    induction cells with
    | nil => intro t ht; simp [killTimesFromCells] at ht
    | cons c cs ih =>
      intro t ht
      rcases h2 : timeToSeconds c with _ | q
      · rw [killTimes_cons_nan c cs h2] at ht
        exact ih t ht
      · rw [killTimes_cons_num c cs q h2] at ht
        by_cases hq : 0 < q
        · rw [if_pos hq] at ht
          rcases List.mem_cons.1 ht with rfl | ht2
          · exact hq
          · exact ih t ht2
        · rw [if_neg hq] at ht
          exact ih t ht

/-- C10 witness: the hypotheses of both universally quantified parts
hold at concrete inputs and the conclusions follow. -/
theorem c10_witness :
    ((splitSub [':'] ("1:2").data).length < 3 ∧ timeToSeconds ("1:2") = some 0) ∧
    ((5 : ℚ) ∈ killTimesFromCells [("00:00:00"), ("00:00:05")] ∧ (0 : ℚ) < 5) :=
  ⟨⟨by with_unfolding_all decide, c10_killtimes.1 ("1:2") (by with_unfolding_all decide)⟩,
    ⟨by with_unfolding_all decide,
      c10_killtimes.2.2 [("00:00:00"), ("00:00:05")] 5 (by with_unfolding_all decide)⟩⟩

/-- C8: when a file taken by the detailed branch has no Scenario match
or its score parses to NaN, the scenario-and-score guard rejects it:
no record is produced and the results object is unchanged (silently
skipped, no error raised — the code has no error path here). -/
theorem c8_skipped :
    ∀ (now : String) (res : Series) (f : FileInput),
      isDetailed2 f.text = true →
      (d2scenario f.text = none ∨ d2score f.text = none) →
      detailed2 now f = none ∧ processFile2raw now res f = res := by
  intro now res f hdet h
  have hd : detailed2 now f = none := by
    unfold detailed2
    rcases h with h | h
    · rw [h]
    · rw [h]
      rcases d2scenario f.text with _ | sc <;> rfl
  refine ⟨hd, ?_⟩
  unfold processFile2raw
  rw [if_pos hdet, hd]

/-- C8 witness: a detailed log with no Scenario field is skipped. -/
theorem c8_witness :
    (isDetailed2 fileC8.text = true ∧
      (d2scenario fileC8.text = none ∨ d2score fileC8.text = none)) ∧
    (detailed2 now0 fileC8 = none ∧ processFile2raw now0 [] fileC8 = []) :=
  ⟨⟨by with_unfolding_all decide, Or.inl (by with_unfolding_all decide)⟩,
    c8_skipped now0 [] fileC8 (by with_unfolding_all decide)
      (Or.inl (by with_unfolding_all decide))⟩

/-- C6: every record the detailed branch produces carries the accuracy
hits/(hits+misses) when hits+misses is positive and 0 otherwise; on a
detailed log with Hit Count 80 and Miss Count 20 the stored accuracy is
exactly 4/5. -/
theorem c6_accuracy :
    (∀ (now : String) (f : FileInput) (r : DataPoint),
      detailed2 now f = some r →
      r.accuracy = some (accuracySpec (d2hits f.text) (d2misses f.text))) ∧
    (detailed2 now0 file80).map DataPoint.accuracy = some (some (4 / 5 : ℚ)) := by
  constructor
  · intro now f r h
    unfold detailed2 at h
    rcases hsc : d2scenario f.text with _ | sc <;> rw [hsc] at h
    · exact absurd h (by simp)
    rcases hq : d2score f.text with _ | q <;> rw [hq] at h <;> dsimp only at h
    · exact absurd h (by simp)
    by_cases he : sc = ""
    · rw [if_pos he] at h
      exact absurd h (by simp)
    · rw [if_neg he] at h
      have hr := (Option.some_inj.1 h).symm
      rw [hr]
      rfl
  · with_unfolding_all decide

/-- C6 witness: the general part applied to file80. -/
theorem c6_witness :
    detailed2 now0 file80 = some rec80 ∧
    rec80.accuracy = some (accuracySpec (d2hits file80.text) (d2misses file80.text)) :=
  ⟨by with_unfolding_all decide,
    c6_accuracy.1 now0 file80 rec80 (by with_unfolding_all decide)⟩

/-- Appending a record adds exactly one to the stored total. -/
theorem pushInto_totalRecords (res : Series) (k : String) (r : DataPoint) :
    totalRecords (pushInto res k r) = totalRecords res + 1 := by
  induction res with
  | nil => rfl
  | cons p rest ih =>
    by_cases h : p.1 = k
    · simp only [pushInto, if_pos h, totalRecords, List.map_cons, List.sum_cons,
        List.length_append, List.length_cons, List.length_nil]
      omega
    · simp only [pushInto, if_neg h, totalRecords, List.map_cons, List.sum_cons] at ih ⊢
      omega

/-- A summary row produces a record exactly when its resolved scenario
name is truthy. -/
theorem rowRecord2_isSome_eq (now : String) (row : List (String × String)) :
    (rowRecord2 now row).isSome = truthyRow row := by
  unfold rowRecord2 truthyRow truthyS
  rcases h : rowScenario row with _ | nm
  · rfl
  · by_cases he : nm = "" <;> simp [he]

/-- A row with a falsy scenario name produces no record. -/
theorem rowRecord2_eq_none (now : String) (row : List (String × String))
    (h : truthyRow row = false) : rowRecord2 now row = none := by
  have hs := rowRecord2_isSome_eq now row
  rw [h] at hs
  rcases ho : rowRecord2 now row with _ | v
  · rfl
  · rw [ho] at hs
    simp at hs

/-- C7: folding the summary branch over any row list adds exactly one
record per row with a truthy resolved scenario name and none for the
others; and on a non-detailed file processFiles is exactly that fold. -/
theorem c7_summary :
    (∀ (now : String) (res : Series) (rows : List (List (String × String))),
      totalRecords (rows.foldl (summaryStep now) res)
        = totalRecords res + rows.countP truthyRow) ∧
    (∀ (now : String) (row : List (String × String)),
      (rowRecord2 now row).isSome = truthyRow row) ∧
    (∀ (now : String) (res : Series) (f : FileInput),
      isDetailed2 f.text = false →
      processFile2raw now res f = (papaHeaderRows f.text).foldl (summaryStep now) res) := by
  refine ⟨?_, rowRecord2_isSome_eq, ?_⟩
  · intro now res rows
    induction rows generalizing res with
    | nil => simp
    | cons row rows ih =>
      rw [List.foldl_cons, ih, List.countP_cons]
      unfold summaryStep
      rcases hr : rowRecord2 now row with _ | r
      · have ht : truthyRow row = false := by
          have := rowRecord2_isSome_eq now row
          rw [hr] at this
          exact this.symm
        simp [ht]
      · have ht : truthyRow row = true := by
          have := rowRecord2_isSome_eq now row
          rw [hr] at this
          exact this.symm
        rw [pushInto_totalRecords]
        simp [ht]
        omega
  · intro now res f h
    unfold processFile2raw
    rw [if_neg (by simp [h])]

/-- C7 witness: the detailed-branch hypothesis of the third part holds
on a concrete summary file. -/
theorem c7_witness :
    isDetailed2 fileC5.text = false ∧
    processFile2raw now0 [] fileC5 = (papaHeaderRows fileC5.text).foldl (summaryStep now0) [] :=
  ⟨by with_unfolding_all decide,
    c7_summary.2.2 now0 [] fileC5 (by with_unfolding_all decide)⟩

/-- C5 amended: a file that fails the detailed-format test and whose
parsed rows all have falsy scenario columns produces zero records (the
results object is returned unchanged); the source constructs no skip
entry on any path, so no UnrecognizedFormat report exists either. -/
theorem c5_amended :
    ∀ (now : String) (res : Series) (f : FileInput),
      isDetailed2 f.text = false →
      (∀ row ∈ papaHeaderRows f.text, truthyRow row = false) →
      processFile2raw now res f = res := by
  intro now res f h1 h2
  unfold processFile2raw
  rw [if_neg (by simp [h1])]
  revert h2
  generalize papaHeaderRows f.text = rows
  intro h2
  induction rows generalizing res with
  | nil => rfl
  | cons row rows ih =>
    rw [List.foldl_cons]
    have hrow : summaryStep now res row = res := by
      unfold summaryStep
      rw [rowRecord2_eq_none now row (h2 row (List.mem_cons_self row rows))]
    rw [hrow]
    exact ih res (fun r hr => h2 r (List.mem_cons_of_mem row hr))

/-- C5 amended witness: the hypotheses hold at a concrete unrecognized
file and nothing is ingested. -/
theorem c5_witness :
    (isDetailed2 fileW5.text = false ∧
      (∀ row ∈ papaHeaderRows fileW5.text, truthyRow row = false)) ∧
    processFile2raw now0 [] fileW5 = [] :=
  ⟨⟨by with_unfolding_all decide, by with_unfolding_all decide⟩,
    c5_amended now0 [] fileW5 (by with_unfolding_all decide) (by with_unfolding_all decide)⟩

/-- The submitted batches of the upload loop do not depend on which
batches fail: the loop body records an error and continues. -/
theorem runSyncGo_fst_eq {α : Type} (fails : ℕ → Bool) :
    ∀ (n : ℕ) (l : List α), l.length ≤ n → ∀ i,
      (runSyncGo fails l i).1 = syncBatches l := by
  intro n
  induction n with
  | zero =>
    intro l hl i
    rcases l with _ | ⟨c, rest⟩
    · simp [runSyncGo, syncBatches]
    · simp at hl
  | succ n ih =>
    intro l hl i
    rcases l with _ | ⟨c, rest⟩
    · simp [runSyncGo, syncBatches]
    · simp only [runSyncGo, syncBatches]
      rw [ih ((c :: rest).drop BATCH_SIZE)
        (by simp only [List.length_drop, List.length_cons, BATCH_SIZE]
            simp only [List.length_cons] at hl
            omega)
        (i + 1)]

/-- The final errorCount counts exactly the failing batch indices. -/
theorem runSyncGo_snd_eq {α : Type} (fails : ℕ → Bool) :
    ∀ (n : ℕ) (l : List α), l.length ≤ n → ∀ i,
      (runSyncGo fails l i).2
        = ((List.range' i (syncBatches l).length).filter fails).length := by
  intro n
  induction n with
  | zero =>
    intro l hl i
    rcases l with _ | ⟨c, rest⟩
    · simp [runSyncGo, syncBatches]
    · simp at hl
  | succ n ih =>
    intro l hl i
    rcases l with _ | ⟨c, rest⟩
    · simp [runSyncGo, syncBatches]
    · simp only [runSyncGo, syncBatches, List.length_cons, List.range'_succ, List.filter_cons]
      rw [ih ((c :: rest).drop BATCH_SIZE)
        (by simp only [List.length_drop, List.length_cons, BATCH_SIZE]
            simp only [List.length_cons] at hl
            omega)
        (i + 1)]
      by_cases hf : fails i
      · simp only [hf, if_pos, List.length_cons]
        omega
      · simp [hf]

/-- Number of batches: the ceiling of length/BATCH_SIZE. -/
theorem syncBatches_length_eq {α : Type} :
    ∀ (n : ℕ) (l : List α), l.length ≤ n →
      (syncBatches l).length = (l.length + BATCH_SIZE - 1) / BATCH_SIZE := by
  intro n
  induction n with
  | zero =>
    intro l hl
    rcases l with _ | ⟨c, rest⟩
    · simp [syncBatches, BATCH_SIZE]
    · simp at hl
  | succ n ih =>
    intro l hl
    rcases l with _ | ⟨c, rest⟩
    · simp [syncBatches, BATCH_SIZE]
    · simp only [syncBatches, List.length_cons]
      rw [ih ((c :: rest).drop BATCH_SIZE)
        (by simp only [List.length_drop, List.length_cons, BATCH_SIZE]
            simp only [List.length_cons] at hl
            omega)]
      simp only [List.length_drop, List.length_cons, BATCH_SIZE]
      omega

/-- C9: uploading 250 records with batch size 100 issues exactly 3
insert calls; the submitted batches are the slices of the input
independently of any failures, and the recorded errorCount is the number
of failing calls among the 3 — a failing batch does not prevent the
later ones. -/
theorem c9_batches {α : Type} :
    ∀ (l : List α) (fails : ℕ → Bool),
      l.length = 250 →
      (runSync l fails).1.length = 3 ∧
      (runSync l fails).1 = syncBatches l ∧
      (runSync l fails).2 = ((List.range 3).filter fails).length := by
  intro l fails hl
  have h1 : (runSync l fails).1 = syncBatches l :=
    runSyncGo_fst_eq fails l.length l (le_refl _) 0
  have h2 : (syncBatches l).length = 3 := by
    rw [syncBatches_length_eq l.length l (le_refl _), hl]
    rfl
  refine ⟨by rw [h1, h2], h1, ?_⟩
  have h3 := runSyncGo_snd_eq fails l.length l (le_refl _) 0
  rw [runSync, h3, h2, List.range_eq_range']

/-- C9 witness: 250 concrete records with the second batch failing. -/
theorem c9_witness :
    (List.replicate 250 (0 : ℕ)).length = 250 ∧
    ((runSync (List.replicate 250 (0 : ℕ)) (fun i => i = 1)).1.length = 3 ∧
      (runSync (List.replicate 250 (0 : ℕ)) (fun i => i = 1)).1
        = syncBatches (List.replicate 250 (0 : ℕ)) ∧
      (runSync (List.replicate 250 (0 : ℕ)) (fun i => i = 1)).2
        = ((List.range 3).filter (fun i => i = 1)).length) :=
  ⟨by simp, c9_batches (List.replicate 250 (0 : ℕ)) (fun i => i = 1) (by simp)⟩

/-- When a key does not occur in a well-formed snapshot, no stored
record carries it as scenario. -/
theorem flattenVals_filter_nilKey :
    ∀ (m : Series) (k : String),
      (∀ p ∈ m, ∀ r ∈ p.2, r.scenario = p.1) →
      k ∉ m.map Prod.fst →
      (flattenVals m).filter (fun r => r.scenario = k) = [] := by
  intro m
  induction m with
  | nil => intro k _ _; rfl
  | cons p rest ih =>
    intro k hwf hk
    have hkp : p.1 ≠ k := by
      intro hc
      exact hk (by simp [hc])
    simp only [flattenVals, List.filter_append]
    have h1 : p.2.filter (fun r => r.scenario = k) = [] := by
      rw [List.filter_eq_nil_iff]
      intro r hr
      have hsc := hwf p (List.mem_cons_self _ _) r hr
      simp [hsc, hkp]
    rw [h1, List.nil_append]
    exact ih k (fun q hq => hwf q (List.mem_cons_of_mem _ hq))
      (fun hc => hk (List.mem_cons_of_mem _ hc))

/-- In a well-formed snapshot, the records whose scenario is k are
exactly the stored list under key k. -/
theorem flattenVals_filter_eq :
    ∀ (m : Series) (k : String),
      (∀ p ∈ m, ∀ r ∈ p.2, r.scenario = p.1) →
      (m.map Prod.fst).Nodup →
      (flattenVals m).filter (fun r => r.scenario = k) = oldAt m k := by
  intro m
  induction m with
  | nil => intro k _ _; rfl
  | cons p rest ih =>
    intro k hwf hnd
    have hwf1 : ∀ r ∈ p.2, r.scenario = p.1 := hwf p (List.mem_cons_self _ _)
    have hwfr : ∀ q ∈ rest, ∀ r ∈ q.2, r.scenario = q.1 :=
      fun q hq => hwf q (List.mem_cons_of_mem _ hq)
    have hndr : (rest.map Prod.fst).Nodup := (List.nodup_cons.1 (by simpa using hnd)).2
    simp only [flattenVals, List.filter_append, oldAt, alookup]
    by_cases hkp : p.1 = k
    · rw [if_pos hkp]
      have h1 : p.2.filter (fun r => r.scenario = k) = p.2 := by
        rw [List.filter_eq_self]
        intro r hr
        simp [hwf1 r hr, hkp]
      have h2 : (flattenVals rest).filter (fun r => r.scenario = k) = [] := by
        apply flattenVals_filter_nilKey rest k hwfr
        have hp1 : p.1 ∉ rest.map Prod.fst := (List.nodup_cons.1 (by simpa using hnd)).1
        rw [← hkp]
        exact hp1
      rw [h1, h2, List.append_nil, Option.getD_some]
    · rw [if_neg hkp]
      have h1 : p.2.filter (fun r => r.scenario = k) = [] := by
        rw [List.filter_eq_nil_iff]
        intro r hr
        simp [hwf1 r hr, hkp]
      rw [h1, List.nil_append]
      exact ih k hwfr hndr

/-- Membership in the grouped snapshot determines the group. -/
theorem groupBy_mem {l : List DataPoint} {k : String} {g : List DataPoint}
    (h : (k, g) ∈ groupByScenario l) :
    g = l.filter (fun r => r.scenario = k) := by
  unfold groupByScenario at h
  rcases List.mem_map.1 h with ⟨k2, hk2, he⟩
  have h1 : k2 = k := congrArg Prod.fst he
  subst h1
  exact (congrArg Prod.snd he).symm

/-- The date comparator is transitive. -/
theorem recLe_trans : ∀ (a b c : DataPoint), recLe a b → recLe b c → recLe a c := by
  intro a b c hab hbc
  simp only [recLe, decide_eq_true_eq] at hab hbc ⊢
  exact le_trans hab hbc

/-- The date comparator is total. -/
theorem recLe_total : ∀ (a b : DataPoint), recLe a b || recLe b a := by
  intro a b
  simp only [recLe, Bool.or_eq_true, decide_eq_true_eq]
  exact le_total a.date b.date

/-- C3 amended: page.tsx's processAndSaveStats satisfies the aggregator
contract — for every well-formed prior snapshot, every scenario list of
the merged snapshot is a permutation of the previously stored records
of that scenario together with the new records for it (nothing is
dropped), sorted ascending by date.  (part_001/part_002 instead
overwrite affected scenarios; see the counterexample.) -/
theorem c3_amended :
    ∀ (prev : Series) (newData : List DataPoint) (k : String) (l : List DataPoint),
      WFSeries prev →
      (k, l) ∈ processAndSaveStats prev newData →
      l.Perm (oldAt prev k ++ newData.filter (fun r => r.scenario = k)) ∧
      List.Pairwise (fun a b => a.date ≤ b.date) l := by
  intro prev newData k l hwf hmem
  unfold processAndSaveStats at hmem
  rcases List.mem_map.1 hmem with ⟨p, hp, he⟩
  have hk : p.1 = k := congrArg Prod.fst he
  have hl : l = p.2.mergeSort recLe := (congrArg Prod.snd he).symm
  have hg : p.2 = (flattenVals prev ++ newData).filter (fun r => r.scenario = p.1) :=
    groupBy_mem hp
  rw [hk] at hg
  constructor
  · have hperm : (p.2.mergeSort recLe).Perm p.2 := List.mergeSort_perm p.2 recLe
    have heq : p.2 = oldAt prev k ++ newData.filter (fun r => r.scenario = k) := by
      rw [hg, List.filter_append, flattenVals_filter_eq prev k hwf.1 hwf.2]
    rw [hl]
    exact heq ▸ hperm
  · rw [hl]
    have hs := List.sorted_mergeSort recLe_trans recLe_total p.2
    exact hs.imp (fun hab => by simpa [recLe, decide_eq_true_eq] using hab)

/-- C3 amended witness: a concrete well-formed snapshot and batch. -/
theorem c3_witness :
    (WFSeries [(("A"), [raC3])] ∧
      (("A"), [rbC3, raC3]) ∈ processAndSaveStats [(("A"), [raC3])] [rbC3]) ∧
    ([rbC3, raC3].Perm (oldAt [(("A"), [raC3])] ("A")
        ++ [rbC3].filter (fun r => r.scenario = ("A"))) ∧
      List.Pairwise (fun a b => a.date ≤ b.date) [rbC3, raC3]) :=
  ⟨⟨by with_unfolding_all decide, by with_unfolding_all decide⟩,
    c3_amended [(("A"), [raC3])] [rbC3] ("A") [rbC3, raC3]
      (by with_unfolding_all decide) (by with_unfolding_all decide)⟩

/-- C3 counterexample: with one record already stored under scenario A,
merging a new batch containing one record for A through part_002's
snapshot update yields a list holding only the new record — the
previously stored record is dropped, contradicting the claimed
old-and-new union. -/
theorem c3_cex :
    alookup (part2Finalize [(("A"), [raC3])] (pushInto [] ("A") rbC3)) ("A")
      = some [rbC3] ∧
    raC3 ∉ [rbC3] ∧
    raC3 ∈ oldAt [(("A"), [raC3])] ("A") := by
  refine ⟨?_, ?_, ?_⟩ <;> with_unfolding_all decide

end Kovaaks
